import Mathlib

/-!
Verification of the streaming/stop-string control loop of
`modules/text_generation.py`.

Strings are embedded as `List Char`; Python slices map to `List.take` /
`List.drop` (Python's clamping of out-of-range slices agrees with the
truncated `Nat` subtraction used here).  Wall-clock instants read from
`time.time()` are embedded as exact rationals supplied with each loop
iteration.
-/

namespace TextGeneration

/-- Characters of a string literal; used to state concrete scenarios. -/
def chars (s : String) : List Char :=
  s.toList

/-- Embedding of Python `reply.find(string)`: index of the first occurrence
of `s` as a contiguous substring of `t`, or `none` when `reply.find` would
return `-1`.  `find` of the empty string returns `0`. -/
def findSub : List Char → List Char → Option Nat
  | [], s => if s.isEmpty then some 0 else none
  | c :: t, s =>
    if s.isPrefixOf (c :: t) then some 0
    else
      match findSub t s with
      | some idx => some (idx + 1)
      | none => none

/-- First loop of `apply_stopping_strings` (source lines 313-318): scan the
stop strings in order and return the index of the first occurrence of the
first one found in `reply`. -/
def findFirstStop (reply : List Char) : List (List Char) → Option Nat
  | [] => none
  | s :: rest =>
    match findSub reply s with
    | some idx => some idx
    | none => findFirstStop reply rest

/-- Inner loop of the tail-trimming pass (source lines 324-326):
`for j in range(len(string) - 1, 0, -1): if reply[-j:] == string[:j]`.
Returns the largest `j` with `1 ≤ j ≤ n` such that the last `j` characters
of `reply` equal the first `j` characters of `s`, scanning downward. -/
def tailMatchLenAux (reply s : List Char) : Nat → Option Nat
  | 0 => none
  | j + 1 =>
    if reply.drop (reply.length - (j + 1)) = s.take (j + 1) then some (j + 1)
    else tailMatchLenAux reply s j

/-- Largest proper-prefix length of `s` matching the tail of `reply`
(the inner loop starts at `len(string) - 1`). -/
def tailMatchLen (reply s : List Char) : Option Nat :=
  tailMatchLenAux reply s (s.length - 1)

/-- Outer tail-trimming loop of `apply_stopping_strings` (source lines
323-331): the first stop string with a matching tail prefix is trimmed off
(`reply = reply[:-j]`) and the loop exits via the `for/else` + `break`. -/
def trimTail (reply : List Char) : List (List Char) → List Char
  | [] => reply
  | s :: rest =>
    match tailMatchLen reply s with
    | some j => reply.take (reply.length - j)
    | none => trimTail reply rest

/-- Embedding of `apply_stopping_strings(reply, all_stop_strings)` (source
lines 311-333): truncate at the first occurrence of the first stop string
found, reporting `stop_found = True`; otherwise trim a trailing proper
prefix of the first stop string whose prefix matches the tail. -/
def apply_stopping_strings (reply : List Char) (stops : List (List Char)) :
    List Char × Bool :=
  match findFirstStop reply stops with
  | some idx => (reply.take idx, true)
  | none => (trimTail reply stops, false)

/-- Float literal `0.041666666666666664` from source lines 124 and 151 (the
24-updates-per-second window), as an exact rational. -/
def window : ℚ := 41666666666666664 / 1000000000000000000

/-- Observable inputs of one iteration of the streaming loop of
`_generate_reply`: the text produced by the backend generator so far, the
value of `time.time()` read at the head of the iteration, and the value of
`shared.stop_everything` when the break condition is tested. -/
structure LoopItem where
  reply : List Char
  curTime : ℚ
  stopEverything : Bool

/-- Streaming loop of `_generate_reply` (source lines 132-156; the
token-count branch at lines 103-129 has the same control flow, pairing each
yield with a count).  Threads `last_update` and the loop variable `reply`;
returns the yielded partial replies and the final value of `reply`.  In the
tokens-per-second branch the sleep is modelled by stamping `last_update`
with `lastUpdate + 1/mts` when the interval has not yet elapsed. -/
def streamLoopAux (mts : ℚ) (isStream : Bool) (stops : List (List Char)) :
    List LoopItem → ℚ → List Char → List (List Char) × List Char
  | [], _, reply => ([], reply)
  | item :: rest, lastUpdate, _ =>
    let pr := apply_stopping_strings item.reply stops
    let breakNow := pr.2 || (decide (0 < mts) && item.stopEverything)
    if isStream then
      if 0 < mts then
        let emitTime := if 0 < 1 / mts - (item.curTime - lastUpdate)
          then lastUpdate + 1 / mts else item.curTime
        if breakNow then ([pr.1], pr.1)
        else
          let r := streamLoopAux mts isStream stops rest emitTime pr.1
          (pr.1 :: r.1, r.2)
      else
        if window < item.curTime - lastUpdate then
          if breakNow then ([pr.1], pr.1)
          else
            let r := streamLoopAux mts isStream stops rest item.curTime pr.1
            (pr.1 :: r.1, r.2)
        else
          if breakNow then ([], pr.1)
          else streamLoopAux mts isStream stops rest lastUpdate pr.1
    else
      if breakNow then ([], pr.1)
      else streamLoopAux mts isStream stops rest lastUpdate pr.1

/-- Last backend reply of a run, defaulting to the initial `reply = ''`. -/
def lastReplyD (d : List Char) : List LoopItem → List Char
  | [] => d
  | item :: rest => lastReplyD item.reply rest

/-- Reference emitter for the default cadence, written from the spec words
for the no-cap path: an update is forwarded exactly when more than the
1/24-second window has elapsed since the last forwarded update. -/
def cadenceEmit (lastUpdate : ℚ) : List LoopItem → List (List Char)
  | [] => []
  | item :: rest =>
    if window < item.curTime - lastUpdate then
      item.reply :: cadenceEmit item.curTime rest
    else cadenceEmit lastUpdate rest

/-- Model of `_generate_reply` (source lines 58-163) around its streaming
loop: `all_stop_strings` is always the empty list (the accumulation at
lines 83-85 is commented out), `state['max_tokens_second']` is overwritten
to `0` (line 102), `last_update` starts at `-1` and `reply` at `''`
(lines 93-94), and after the loop the final reply is yielded
unconditionally (lines 158-163).  The caller-configured cap and the
caller-supplied stopping strings are dropped exactly where the source
drops them. -/
def generateReplyModel (configuredCap : ℚ) (isStream : Bool)
    (stoppingStrings : List (List Char)) (items : List LoopItem) :
    List (List Char) :=
  let allStopStrings : List (List Char) := []
  let mts : ℚ := 0
  let r := streamLoopAux mts isStream allStopStrings items (-1) []
  r.1 ++ [r.2]

/-- Result of Python `int(state['seed'])`: either the converted integer or
the value text of the `ValueError` that `int()` raises on a non-integer. -/
inductive SeedVal where
  | intVal (n : ℤ)
  | nonInt (s : String)

/-- Conversion performed by `int(seed)` on source line 295. -/
def pyIntSeed : SeedVal → Except String ℤ
  | .intVal n => .ok n
  | .nonInt s => .error ("invalid literal for int() with base 10: " ++ s)

/-- Embedding of `set_manual_seed` (source lines 294-304): convert the seed
with `int`, replace `-1` by a pseudo-random draw `rng` from `[1, 2**31]`,
and return the seed used. -/
def set_manual_seed (seed : SeedVal) (rng : ℤ) : Except String ℤ := do
  let n ← pyIntSeed seed
  if n = -1 then pure rng else pure n

/-- Body of `_generate_reply` as observed through its yields: the seed is
set on line 92, before the streaming loop runs, so a seed error aborts the
generator before any yield. -/
def generateReplyBody (seed : SeedVal) (rng : ℤ) (configuredCap : ℚ)
    (isStream : Bool) (stoppingStrings : List (List Char))
    (items : List LoopItem) : Except String (List (List Char)) := do
  let _ ← set_manual_seed seed rng
  pure (generateReplyModel configuredCap isStream stoppingStrings items)

/-- Entry point `generate_reply` (source lines 39-45): `try/finally` with
no `except` clause, so exceptions from the body propagate to the caller. -/
def generate_reply (seed : SeedVal) (rng : ℤ) (configuredCap : ℚ)
    (isStream : Bool) (stoppingStrings : List (List Char))
    (items : List LoopItem) : Except String (List (List Char)) :=
  generateReplyBody seed rng configuredCap isStream stoppingStrings items

/-- Entry point `generate_reply_token` (source lines 48-56): the iteration
is wrapped in `except Exception as e: print(e)`, so an error is swallowed
and the caller sees only the items yielded before it — none for a seed
error, which precedes every yield. -/
def generate_reply_token (seed : SeedVal) (rng : ℤ) (configuredCap : ℚ)
    (isStream : Bool) (stoppingStrings : List (List Char))
    (items : List LoopItem) : Except String (List (List Char)) :=
  match generateReplyBody seed rng configuredCap isStream stoppingStrings items with
  | .ok out => .ok out
  | .error _ => .ok []

/-- Restatement of the library fact that `List.isPrefixOf` decides `<+:`,
under a local name. -/
theorem isPrefixOf_eq_true_iff (l₁ l₂ : List Char) :
    l₁.isPrefixOf l₂ = true ↔ l₁ <+: l₂ :=
  List.isPrefixOf_iff_prefix

/-- Restatement of the library fact that `List.take` yields an initial
segment, under a local name. -/
theorem take_isInitial (n : Nat) (l : List Char) : l.take n <+: l :=
  List.take_prefix n l

/-! Bridge lemmas relating `findSub` to `List.IsInfix` / `List.IsPrefix`. -/

theorem findSub_eq_none_iff (t s : List Char) : findSub t s = none ↔ ¬ s <:+: t := by
  induction t with
  | nil =>
    by_cases h : s = [] <;> simp [findSub, List.isEmpty_iff, h]
  | cons c t ih =>
    rw [List.infix_cons_iff]
    by_cases h : s <+: c :: t
    · have h' : s.isPrefixOf (c :: t) := (isPrefixOf_eq_true_iff _ _).mpr h
      simp [findSub, h', h]
    · have h' : ¬ s.isPrefixOf (c :: t) := by
        simpa [isPrefixOf_eq_true_iff] using h
      rcases heq : findSub t s with _ | j
      · simp [findSub, h', heq, h, ih.mp heq]
      · have hinf : s <:+: t := by
          by_contra hc
          have hnone := ih.mpr hc
          rw [hnone] at heq
          cases heq
        simp [findSub, h', heq, h, hinf]

theorem findSub_isSome_of_infix {t s : List Char} (h : s <:+: t) :
    ∃ idx, findSub t s = some idx := by
  rcases heq : findSub t s with _ | idx
  · exact absurd h ((findSub_eq_none_iff t s).mp heq)
  · exact ⟨idx, rfl⟩

/-- An index returned by `findSub` is an occurrence: `s` starts at `idx`. -/
theorem findSub_starts_at {t s : List Char} {idx : Nat}
    (h : findSub t s = some idx) : s <+: t.drop idx := by
  induction t generalizing idx with
  | nil =>
    by_cases hs : s = []
    · subst hs
      simp
    · simp [findSub, List.isEmpty_iff, hs] at h
  | cons c t ih =>
    simp only [findSub] at h
    by_cases hp : s.isPrefixOf (c :: t)
    · simp only [hp, if_true, Option.some.injEq] at h
      subst h
      simpa [isPrefixOf_eq_true_iff] using hp
    · simp only [hp, if_false] at h
      rcases heq : findSub t s with _ | j
      · rw [heq] at h
        cases h
      · rw [heq] at h
        simp at h
        subst h
        simpa using ih heq

/-- An index returned by `findSub` is the first occurrence: no occurrence
starts strictly before it. -/
theorem findSub_some_min {t s : List Char} {idx : Nat}
    (h : findSub t s = some idx) : ∀ k < idx, ¬ s <+: t.drop k := by
  induction t generalizing idx with
  | nil =>
    by_cases hs : s = []
    · simp only [findSub, hs, List.isEmpty_nil, if_true, Option.some.injEq] at h
      intro k hk
      omega
    · simp [findSub, List.isEmpty_iff, hs] at h
  | cons c t ih =>
    simp only [findSub] at h
    by_cases hp : s.isPrefixOf (c :: t)
    · simp only [hp, if_true, Option.some.injEq] at h
      intro k hk
      omega
    · simp only [hp, if_false] at h
      rcases heq : findSub t s with _ | j
      · rw [heq] at h
        cases h
      · rw [heq] at h
        simp at h
        subst h
        intro k hk
        match k with
        | 0 =>
          rw [isPrefixOf_eq_true_iff] at hp
          simpa using hp
        | k + 1 =>
          simpa using ih heq k (by omega)

/-- What is not a substring of `t` is not a substring of a prefix of `t`. -/
theorem not_infix_take_of_not_infix {s t : List Char} (h : ¬ s <:+: t)
    (i : Nat) : ¬ s <:+: t.take i :=
  fun hc => h (hc.trans (take_isInitial i t).isInfix)

/-- Text cut at the first occurrence of a non-empty `s` does not contain
`s`. -/
theorem findSub_not_infix_take {t s : List Char} {idx : Nat} (hs : s ≠ [])
    (h : findSub t s = some idx) : ¬ s <:+: t.take idx := by
  rintro ⟨u, v, huv⟩
  have hlen : u.length + s.length + v.length = (t.take idx).length := by
    rw [← huv]
    simp
    omega
  have hle : (t.take idx).length ≤ idx := List.length_take_le idx t
  have hslen : 1 ≤ s.length := by
    cases s with
    | nil => exact absurd rfl hs
    | cons a s => simp
  have hlt : u.length < idx := by omega
  have hpre : s <+: (t.take idx).drop u.length := by
    rw [← huv, List.append_assoc, List.drop_left]
    exact List.prefix_append s v
  rw [List.drop_take] at hpre
  have : s <+: t.drop u.length := hpre.trans (take_isInitial _ _)
  exact findSub_some_min h u.length hlt this

/-! Lemmas about the order-of-scan of `findFirstStop`. -/

theorem findFirstStop_eq_none {reply : List Char} {stops : List (List Char)}
    (h : ∀ s ∈ stops, ¬ s <:+: reply) : findFirstStop reply stops = none := by
  induction stops with
  | nil => rfl
  | cons s rest ih =>
    have h1 : findSub reply s = none :=
      (findSub_eq_none_iff _ _).mpr (h s (by simp))
    simp only [findFirstStop, h1]
    exact ih fun x hx => h x (by simp [hx])

theorem findFirstStop_first {reply s₀ : List Char} {idx : Nat}
    (S₁ S₂ : List (List Char)) (h₁ : ∀ s ∈ S₁, ¬ s <:+: reply)
    (h₀ : findSub reply s₀ = some idx) :
    findFirstStop reply (S₁ ++ s₀ :: S₂) = some idx := by
  induction S₁ with
  | nil => simp [findFirstStop, h₀]
  | cons s rest ih =>
    have hn : findSub reply s = none :=
      (findSub_eq_none_iff _ _).mpr (h₁ s (by simp))
    simp only [List.cons_append, findFirstStop, hn]
    exact ih fun x hx => h₁ x (by simp [hx])

/-! Lemmas characterising the tail-trim pass. -/

/-- A slice condition `reply[-j:] == u` for a list `u` of exactly the
sliced length says that `u` is a suffix. -/
theorem drop_length_sub_eq_iff_suffix (T u : List Char) :
    T.drop (T.length - u.length) = u ↔ u <:+ T := by
  constructor
  · intro h
    rw [← h]
    exact List.drop_suffix _ _
  · rintro ⟨p, hp⟩
    rw [← hp]
    have hlen : (p ++ u).length - u.length = p.length := by simp
    rw [hlen]
    exact List.drop_left p u

/-- The code's tail test `reply[-j:] == string[:j]`, for `j` within the
length of `s`, says the first `j` characters of `s` are a suffix of `T`. -/
theorem tailCond_iff (T s : List Char) (j : Nat) (hj : j ≤ s.length) :
    T.drop (T.length - j) = s.take j ↔ s.take j <:+ T := by
  have hl : (s.take j).length = j := by
    simp only [List.length_take]
    omega
  have hbr := drop_length_sub_eq_iff_suffix T (s.take j)
  rw [hl] at hbr
  exact hbr

theorem tailMatchLenAux_eq_none (T s : List Char) (n : Nat)
    (h : ∀ j, 1 ≤ j → j ≤ n → T.drop (T.length - j) ≠ s.take j) :
    tailMatchLenAux T s n = none := by
  induction n with
  | zero => rfl
  | succ n ih =>
    simp only [tailMatchLenAux]
    rw [if_neg (h (n + 1) (by omega) (by omega))]
    exact ih fun j h1 h2 => h j h1 (by omega)

theorem tailMatchLenAux_eq_some (T s : List Char) {n j₀ : Nat}
    (h1 : 1 ≤ j₀) (h2 : j₀ ≤ n) (h3 : T.drop (T.length - j₀) = s.take j₀)
    (h4 : ∀ j, j₀ < j → j ≤ n → T.drop (T.length - j) ≠ s.take j) :
    tailMatchLenAux T s n = some j₀ := by
  induction n with
  | zero => omega
  | succ n ih =>
    simp only [tailMatchLenAux]
    by_cases he : j₀ = n + 1
    · subst he
      rw [if_pos h3]
    · rw [if_neg (h4 (n + 1) (by omega) (by omega))]
      exact ih (by omega) fun j hj1 hj2 => h4 j hj1 (by omega)

/-- No non-empty proper prefix of `s` is a suffix of `T`: the inner trim
loop finds nothing. -/
theorem tailMatchLen_eq_none (T s : List Char)
    (h : ∀ j, 1 ≤ j → j < s.length → ¬ s.take j <:+ T) :
    tailMatchLen T s = none := by
  show tailMatchLenAux T s (s.length - 1) = none
  apply tailMatchLenAux_eq_none
  intro j h1 h2
  rw [Ne, tailCond_iff T s j (by omega)]
  exact h j h1 (by omega)

/-- The trim loop returns the largest matching proper-prefix length. -/
theorem tailMatchLen_eq_some (T s : List Char) {j₀ : Nat} (h1 : 1 ≤ j₀)
    (h2 : j₀ < s.length) (h3 : s.take j₀ <:+ T)
    (h4 : ∀ j, j₀ < j → j < s.length → ¬ s.take j <:+ T) :
    tailMatchLen T s = some j₀ := by
  show tailMatchLenAux T s (s.length - 1) = some j₀
  apply tailMatchLenAux_eq_some T s h1 (by omega)
  · rw [tailCond_iff T s j₀ (by omega)]
    exact h3
  · intro j hj1 hj2
    rw [Ne, tailCond_iff T s j (by omega)]
    exact h4 j hj1 (by omega)

/-- The outer trim loop applies the first stop string with a matching tail
prefix and stops. -/
theorem trimTail_first {T s₀ : List Char} {j₀ : Nat}
    (S₁ S₂ : List (List Char)) (h₁ : ∀ s ∈ S₁, tailMatchLen T s = none)
    (h₀ : tailMatchLen T s₀ = some j₀) :
    trimTail T (S₁ ++ s₀ :: S₂) = T.take (T.length - j₀) := by
  induction S₁ with
  | nil => simp [trimTail, h₀]
  | cons s rest ih =>
    simp only [List.cons_append, trimTail, h₁ s (by simp)]
    exact ih fun x hx => h₁ x (by simp [hx])

/-- Both branches of the matcher return a prefix of the input. -/
theorem apply_stopping_strings_shrinks (T : List Char)
    (S : List (List Char)) : (apply_stopping_strings T S).1 <+: T := by
  unfold apply_stopping_strings
  rcases findFirstStop T S with _ | idx
  · show trimTail T S <+: T
    induction S with
    | nil => exact List.prefix_refl T
    | cons s rest ih =>
      simp only [trimTail]
      rcases tailMatchLen T s with _ | j
      · exact ih
      · exact take_isInitial _ _
  · exact take_isInitial _ _

/-- With the empty stop list — the only list the dispatcher ever passes —
the matcher is the identity and never reports a stop. -/
theorem apply_stopping_strings_nil (T : List Char) :
    apply_stopping_strings T [] = (T, false) :=
  rfl

/-- The dispatcher loop in streaming mode with the forced cap `0` and the
forced empty stop list reduces to the plain cadence gate plus threading of
the last reply: no truncation, no early break, no sleep path. -/
theorem streamLoopAux_zero (items : List LoopItem) :
    ∀ (lastUpdate : ℚ) (reply : List Char),
      streamLoopAux 0 true [] items lastUpdate reply
        = (cadenceEmit lastUpdate items, lastReplyD reply items) := by
  induction items with
  | nil =>
    intro lu r
    rfl
  | cons item rest ih =>
    intro lu r
    have h0 : ¬ (0 : ℚ) < 0 := lt_irrefl 0
    by_cases hw : window < item.curTime - lu
    · simp [streamLoopAux, cadenceEmit, lastReplyD, apply_stopping_strings_nil,
        h0, hw, ih]
    · simp [streamLoopAux, cadenceEmit, lastReplyD, apply_stopping_strings_nil,
        h0, hw, ih]

/-! Claim theorems. -/

/-- C10: for every text `T` and stop-string list `S`, the text returned by
`apply_stopping_strings(T, S)` is a prefix of `T` (in particular never
longer than `T`), in both the full-match branch and the tail-trim
branch. -/
theorem C10_result_prefix_of_input (T : List Char) (S : List (List Char)) :
    (apply_stopping_strings T S).1 <+: T :=
  apply_stopping_strings_shrinks T S

/-- C1, counterexample: with `T = "ab"` and `S = ["b", "a"]` the matcher
truncates at the first occurrence of `"b"`, the first stop string of `S`
occurring in `T`, yet the returned text `"a"` still contains the stop
string `"a" ∈ S` as a substring — the claim's final guarantee fails. -/
theorem C1_counterexample :
    apply_stopping_strings (chars "ab") [chars "b", chars "a"]
      = (chars "a", true) ∧
    chars "a" ∈ [chars "b", chars "a"] ∧ chars "a" <:+: chars "a" := by
  decide

/-- C1, amended: when `s₀` is the first stop string of `S = S₁ ++ s₀ :: S₂`
occurring in `T`, the matcher truncates `T` to the content preceding the
first occurrence of `s₀` and reports `stopped = true`; the returned text
contains neither `s₀` (when `s₀` is non-empty) nor any stop string
preceding `s₀` in `S` — but stop strings after `s₀` may remain. -/
theorem C1_amended (T : List Char) (S₁ : List (List Char)) (s₀ : List Char)
    (S₂ : List (List Char)) (h₁ : ∀ s ∈ S₁, ¬ s <:+: T) (h₀ : s₀ <:+: T) :
    ∃ idx, findSub T s₀ = some idx ∧
      apply_stopping_strings T (S₁ ++ s₀ :: S₂) = (T.take idx, true) ∧
      s₀ <+: T.drop idx ∧ (∀ k < idx, ¬ s₀ <+: T.drop k) ∧
      (∀ s ∈ S₁, ¬ s <:+: T.take idx) ∧
      (s₀ ≠ [] → ¬ s₀ <:+: T.take idx) := by
  obtain ⟨idx, hidx⟩ := findSub_isSome_of_infix h₀
  refine ⟨idx, hidx, ?_, findSub_starts_at hidx, findSub_some_min hidx,
    ?_, ?_⟩
  · unfold apply_stopping_strings
    rw [findFirstStop_first S₁ S₂ h₁ hidx]
  · exact fun s hs => not_infix_take_of_not_infix (h₁ s hs) idx
  · exact fun hne => findSub_not_infix_take hne hidx

/-- C1, witness: the spec scenario `T = "Hello\nYou: "`, `S = ["\nYou:"]`
returns `("Hello", true)`. -/
theorem C1_witness :
    (∀ s ∈ ([] : List (List Char)), ¬ s <:+: chars "Hello\nYou: ") ∧
    chars "\nYou:" <:+: chars "Hello\nYou: " ∧
    ∃ idx, findSub (chars "Hello\nYou: ") (chars "\nYou:") = some idx ∧
      apply_stopping_strings (chars "Hello\nYou: ")
          ([] ++ chars "\nYou:" :: []) = ((chars "Hello\nYou: ").take idx, true) ∧
      chars "\nYou:" <+: (chars "Hello\nYou: ").drop idx ∧
      (∀ k < idx, ¬ chars "\nYou:" <+: (chars "Hello\nYou: ").drop k) ∧
      (∀ s ∈ ([] : List (List Char)), ¬ s <:+: (chars "Hello\nYou: ").take idx) ∧
      (chars "\nYou:" ≠ [] → ¬ chars "\nYou:" <:+: (chars "Hello\nYou: ").take idx) :=
  ⟨by decide, by decide,
    C1_amended (chars "Hello\nYou: ") [] (chars "\nYou:") [] (by decide) (by decide)⟩

/-- C2, counterexample: with `T = "aaa"` and `S = ["aab"]` the matcher
trims the matched tail `"aa"` and reports `stopped = false`, but the
returned text `"a"` still ends with `"a"`, a non-empty proper prefix of the
stop string `"aab"` — the claim's final guarantee fails. -/
theorem C2_counterexample :
    apply_stopping_strings (chars "aaa") [chars "aab"] = (chars "a", false) ∧
    (chars "aab").take 1 <:+ chars "a" ∧ (chars "aab").take 1 ≠ [] ∧
    1 < (chars "aab").length := by
  decide

/-- C2, amended: when no stop string occurs in `T`, no stop string in `S₁`
has a proper-prefix tail match, and `j₀` is the largest proper-prefix
length of `s₀` matching the tail of `T`, the matcher removes exactly those
`j₀` trailing characters and reports `stopped = false`.  The single trim is
performed for the first matching stop string only, so the result may again
end with a prefix of a stop string. -/
theorem C2_amended (T : List Char) (S₁ : List (List Char)) (s₀ : List Char)
    (S₂ : List (List Char)) (j₀ : Nat)
    (hno : ∀ s ∈ S₁ ++ s₀ :: S₂, ¬ s <:+: T)
    (h₁ : ∀ s ∈ S₁, ∀ j, 1 ≤ j → j < s.length → ¬ s.take j <:+ T)
    (hj1 : 1 ≤ j₀) (hj2 : j₀ < s₀.length) (hj3 : s₀.take j₀ <:+ T)
    (hmax : ∀ j, j₀ < j → j < s₀.length → ¬ s₀.take j <:+ T) :
    apply_stopping_strings T (S₁ ++ s₀ :: S₂)
      = (T.take (T.length - j₀), false) := by
  unfold apply_stopping_strings
  rw [findFirstStop_eq_none hno,
    trimTail_first S₁ S₂ (fun s hs => tailMatchLen_eq_none T s (h₁ s hs))
      (tailMatchLen_eq_some T s₀ hj1 hj2 hj3 hmax)]

/-- C2, witness: the spec scenario `T = "Hello\nYo"`, `S = ["\nYou:"]`
returns `("Hello", false)`, the tail `"\nYo"` being trimmed. -/
theorem C2_witness :
    (∀ s ∈ [chars "\nYou:"], ¬ s <:+: chars "Hello\nYo") ∧
    (chars "\nYou:").take 3 <:+ chars "Hello\nYo" ∧
    apply_stopping_strings (chars "Hello\nYo") [chars "\nYou:"]
      = (chars "Hello", false) := by
  refine ⟨by decide, by decide, ?_⟩
  have h := C2_amended (chars "Hello\nYo") [] (chars "\nYou:") [] 3
    (by decide) (by decide) (by decide) (by decide) (by decide)
    (by
      intro j hj1 hj2
      have h5 : (chars "\nYou:").length = 5 := rfl
      rw [h5] at hj2
      have hj : j = 4 := by omega
      subst hj
      decide)
  exact h

/-- C6, counterexample: with `T = "aab"` and `S = ["ab"]` the first
application stops with text `"a"`, but re-applying the matcher to `"a"`
tail-trims it further to `""` instead of returning it unchanged. -/
theorem C6_counterexample :
    apply_stopping_strings (chars "aab") [chars "ab"] = (chars "a", true) ∧
    apply_stopping_strings (chars "a") [chars "ab"] = ([], false) := by
  decide

/-- C6, amended: re-applying the matcher to a stopped result that contains
no stop string reports `stopped = false`, and returns a prefix of it (the
text may be tail-trimmed again, not necessarily unchanged; and when some
stop string does occur in the stopped result, the second application can
even report `stopped = true` again). -/
theorem C6_amended (T T' : List Char) (S : List (List Char))
    (h : apply_stopping_strings T S = (T', true))
    (h2 : ∀ s ∈ S, ¬ s <:+: T') :
    (apply_stopping_strings T' S).2 = false ∧
    (apply_stopping_strings T' S).1 <+: T' := by
  refine ⟨?_, apply_stopping_strings_shrinks T' S⟩
  unfold apply_stopping_strings
  rw [findFirstStop_eq_none h2]

/-- C6, witness: stopping `"hiSTOPx"` on `["STOP"]` gives `"hi"`, and
re-applying the matcher to `"hi"` reports no stop and returns a prefix. -/
theorem C6_witness :
    apply_stopping_strings (chars "hiSTOPx") [chars "STOP"]
      = (chars "hi", true) ∧
    (∀ s ∈ [chars "STOP"], ¬ s <:+: chars "hi") ∧
    (apply_stopping_strings (chars "hi") [chars "STOP"]).2 = false ∧
    (apply_stopping_strings (chars "hi") [chars "STOP"]).1 <+: chars "hi" :=
  ⟨by decide, by decide,
    C6_amended (chars "hiSTOPx") (chars "hi") [chars "STOP"]
      (by decide) (by decide)⟩

/-- C3, counterexample: a streaming run with the non-empty caller-supplied
stop list `["y"]` whose single backend update contains the stop string
`"y"` is emitted untruncated, and the run ends with the untruncated final
reply instead of terminating at the stop boundary `"x"`. -/
theorem C3_counterexample :
    generateReplyModel 0 true [chars "y"] [⟨chars "xyz", 0, false⟩]
      = [chars "xyz", chars "xyz"] ∧ chars "y" <:+: chars "xyz" := by
  constructor
  · simp only [generateReplyModel, streamLoopAux_zero, cadenceEmit, lastReplyD]
    norm_num [window]
  · decide

/-- C3, amended: the dispatcher ignores the caller-supplied stopping
strings entirely — `all_stop_strings` is always the empty list, for which
the matcher is the identity reporting no stop — so the output never
depends on them, the loop never breaks on a stop string, and the final
emission is always the untruncated last backend reply. -/
theorem C3_amended (cap : ℚ) (ss : List (List Char))
    (items : List LoopItem) :
    generateReplyModel cap true ss items
      = generateReplyModel cap true [] items ∧
    (∀ T, apply_stopping_strings T [] = (T, false)) ∧
    (generateReplyModel cap true ss items).getLast?
      = some (lastReplyD [] items) := by
  refine ⟨rfl, fun T => rfl, ?_⟩
  simp [generateReplyModel, streamLoopAux_zero, List.getLast?_concat]

/-- C4, counterexample: with a configured cap of `5` tokens per second,
three updates offered `10` ms apart do not enter the sleep path; the
middle update is skipped by the default cadence gate, contradicting both
the `1/cap` spacing and the claim that no emission is skipped. -/
theorem C4_counterexample :
    (['b'] : List Char) ∉ generateReplyModel 5 true []
      [⟨['a'], 0, false⟩, ⟨['b'], 1 / 100, false⟩,
        ⟨['c'], 2 / 100, false⟩] := by
  have he : generateReplyModel 5 true []
      [⟨['a'], 0, false⟩, ⟨['b'], 1 / 100, false⟩,
        ⟨['c'], 2 / 100, false⟩]
      = [['a'], ['c']] := by
    simp only [generateReplyModel, streamLoopAux_zero, cadenceEmit, lastReplyD]
    norm_num [window]
  rw [he]
  decide

/-- C4, amended: the configured tokens-per-second cap is overwritten to
`0` on source line 102 before the loop runs, so the sleep path is
unreachable for every configured cap: streaming emissions are exactly
those of the no-cap 1/24-second cadence gate (which skips updates), always
followed by the final reply. -/
theorem C4_amended (cap : ℚ) (ss : List (List Char))
    (items : List LoopItem) :
    generateReplyModel cap true ss items
      = cadenceEmit (-1) items ++ [lastReplyD [] items] := by
  simp [generateReplyModel, streamLoopAux_zero]

/-- C5: the break condition on source lines 128 and 155 tests
`state['max_tokens_second'] > 0 and shared.stop_everything`, and line 102
has just forced `state['max_tokens_second']` to `0`, so the cancellation
flag is never observed: a run whose flag is set from the second iteration
on still emits every later update and the final reply. -/
theorem C5_flag_never_observed :
    generateReplyModel 0 true []
      [⟨['a'], 0, false⟩, ⟨['b'], 1, true⟩,
        ⟨['c'], 2, true⟩]
      = [['a'], ['b'], ['c'], ['c']] := by
  simp only [generateReplyModel, streamLoopAux_zero, cadenceEmit, lastReplyD]
  norm_num [window]

/-- C7, counterexample: the updates at `0` s and `0.01` s are offered less
than the window apart, yet the forwarded one is the earlier (`"a"`), not
the later (`"b"`), and `"b"` is not the final emission — the claim that
only the later of two close updates is forwarded fails. -/
theorem C7_counterexample :
    generateReplyModel 0 true []
      [⟨['a'], 0, false⟩, ⟨['b'], 1 / 100, false⟩,
        ⟨['c'], 10, false⟩]
      = [['a'], ['c'], ['c']] ∧
    (1 / 100 : ℚ) - 0 ≤ window := by
  constructor
  · simp only [generateReplyModel, streamLoopAux_zero, cadenceEmit, lastReplyD]
    norm_num [window]
  · norm_num [window]

/-- C7, amended: under the default cadence, of two consecutive updates
offered at most the 1/24-second window apart where the earlier passes the
gate, the earlier is forwarded and the later is suppressed by the gate;
the final reply of the sequence is always emitted on loop termination
regardless of cadence. -/
theorem C7_amended (cap : ℚ) (ss : List (List Char)) (r1 r2 r3 : List Char)
    (t1 t2 t3 : ℚ) (h1 : window < t1 - (-1)) (h2 : t2 - t1 ≤ window)
    (h3 : window < t3 - t1) :
    generateReplyModel cap true ss
      [⟨r1, t1, false⟩, ⟨r2, t2, false⟩, ⟨r3, t3, false⟩]
      = [r1, r3, r3] := by
  have h1' : window < t1 + 1 := by linarith
  have h2' : ¬ window < t2 - t1 := not_lt.mpr h2
  simp [generateReplyModel, streamLoopAux_zero, cadenceEmit, lastReplyD,
    h1', h2', h3]

/-- C7, witness: updates at `0` s, `0.01` s and `1` s with any cap and any
supplied stop list forward the first and third plus the final reply. -/
theorem C7_witness :
    window < (0 : ℚ) - (-1) ∧ (1 / 100 : ℚ) - 0 ≤ window ∧
    window < (1 : ℚ) - 0 ∧
    generateReplyModel 0 true []
      [⟨['x'], 0, false⟩, ⟨['y'], 1 / 100, false⟩,
        ⟨['z'], 1, false⟩]
      = [['x'], ['z'], ['z']] :=
  ⟨by norm_num [window], by norm_num [window], by norm_num [window],
    C7_amended 0 [] ['x'] ['y'] ['z'] 0 (1 / 100) 1
      (by norm_num [window]) (by norm_num [window]) (by norm_num [window])⟩

/-- C9, counterexample: a non-integer seed raises inside
`generate_reply_token`, but the `except Exception` handler on source lines
53-54 swallows it: the caller of `generate_reply_token` sees a clean empty
sequence, not an error, while `generate_reply` propagates the error. -/
theorem C9_counterexample :
    generate_reply_token (SeedVal.nonInt "abc") 7 0 true [] []
      = Except.ok [] ∧
    generate_reply (SeedVal.nonInt "abc") 7 0 true [] []
      = Except.error "invalid literal for int() with base 10: abc" :=
  ⟨rfl, rfl⟩

/-- C9, amended: a non-integer seed is propagated as a hard caller-visible
error from `generate_reply`, but `generate_reply_token` catches and
swallows every exception, so from that entry point the caller only sees
the sequence end with no items. -/
theorem C9_amended (s : String) (rng : ℤ) (cap : ℚ) (isStream : Bool)
    (ss : List (List Char)) (items : List LoopItem) :
    generate_reply (SeedVal.nonInt s) rng cap isStream ss items
      = Except.error ("invalid literal for int() with base 10: " ++ s) ∧
    generate_reply_token (SeedVal.nonInt s) rng cap isStream ss items
      = Except.ok [] :=
  ⟨rfl, rfl⟩

end TextGeneration
